import Mathlib

/-!
Shallow embedding of the RealTime-Canva client core: the CanvasManager
(per-author raster layers, undo and redo snapshot stacks, pointer handlers,
remote drawing application, layer composition) and the socket-event
handlers wired in the application (self-event filtering, remote clear,
canvas-state loading).

Raster surfaces are modelled as functions from integer pixel coordinates
to an optional color code (none means a fully transparent pixel, some c a
fully opaque pixel of color c).  The browser's stroke rasterizer is an
external collaborator (the 2d context), so every drawing operation is
parametrized by a rasterization function taking the current path to the
list of pixels the stroke covers; all theorems hold for every rasterizer.
Data URLs produced by toDataURL are modelled as an exact encoding of the
layer, together with a distinguished undecodable value, so that decode
failure paths can be exercised.
-/

/-- A pixel coordinate on the canvas. -/
abbrev Px := Int × Int

/-- One raster surface: each pixel is transparent (none) or an opaque color. -/
abbrev Layer := Px → Option Nat

/-- The all-transparent surface, as produced by clearRect over the whole canvas. -/
def blankLayer : Layer := fun _ => none

/-- The two globalCompositeOperation values the source assigns. -/
inductive CompOp where
  | srcOver
  | destOut
deriving DecidableEq

/-- The mutable drawing-context state the source sets on a 2d context:
composite operation, stroke style, line width and the current path. -/
structure Ctx where
  comp : CompOp
  style : Nat
  width : Nat
  path : List Px

/-- Context state of a freshly created canvas. -/
def initCtx : Ctx := { comp := CompOp.srcOver, style := 0, width := 1, path := [] }

/-- A remote user's canvas entry: its pixel surface and its 2d context. -/
structure RemoteCanvas where
  canvas : Layer
  ctx : Ctx

/-- A freshly created remote canvas: blank surface, fresh context. -/
def blankRC : RemoteCanvas := { canvas := blankLayer, ctx := initCtx }

/-- Result of a toDataURL call: either an exact encoding of a layer or an
undecodable payload (a data url whose Image load fires onerror). -/
inductive DataUrl where
  | good : Layer → DataUrl
  | bad

/-- Model of canvas.toDataURL: an exact snapshot encoding of the layer. -/
def toDataURL (l : Layer) : DataUrl := DataUrl.good l

/-- Model of decoding a data url into a raster (Image onload vs onerror). -/
def decodeDataUrl : DataUrl → Option Layer
  | DataUrl.good l => some l
  | DataUrl.bad => none

/-- Outcome of a promise-returning operation: fulfilled with a boolean, or
rejected (the promise chain ends in reject). -/
inductive JsResult where
  | resolved : Bool → JsResult
  | rejected
deriving DecidableEq

/-- The payload destructured by applyRemoteDrawing; every field can be
absent on a malformed wire event. -/
structure DrawData where
  type : String
  pos : Option Px
  mode : Option String
  color : Option Nat
  width : Option Nat
  userId : Option String

/-- The CanvasManager state: the local user's layer and context, the map of
remote canvases in insertion order, the pointer-gesture flag, current tool
settings and the two history stacks. -/
structure CM where
  userLayer : Layer
  userCtx : Ctx
  remotes : List (String × RemoteCanvas)
  drawing : Bool
  lastPos : Px
  mode : String
  strokeColor : Nat
  lineWidth : Nat
  undoStack : List DataUrl
  redoStack : List DataUrl

/-- Constructor state of CanvasManager: blank layers, brush mode, width 5,
empty history stacks; the initial layer content is a parameter so that
theorems can quantify over it. -/
def initCM (l : Layer) : CM :=
  { userLayer := l
    userCtx := initCtx
    remotes := []
    drawing := false
    lastPos := (0, 0)
    mode := "brush"
    strokeColor := 0
    lineWidth := 5
    undoStack := []
    redoStack := [] }

/-- The maximum history depth, MAX_STACK in the source. -/
def MAX_STACK : Nat := 50

/-- Painting one pixel under a composite operation: source-over writes the
style color, destination-out with a fully opaque source erases the pixel. -/
def paintPixel (comp : CompOp) (style : Nat) (l : Layer) (q : Px) : Layer :=
  fun x => if x = q then (match comp with
    | CompOp.srcOver => some style
    | CompOp.destOut => none) else l x

/-- Painting every pixel a stroke covers, in order. -/
def paintPixels (comp : CompOp) (style : Nat) (pts : List Px) (l : Layer) : Layer :=
  pts.foldl (paintPixel comp style) l

/-- First entry of the remote-canvas map with the given key, as Map.get. -/
def findRC : List (String × RemoteCanvas) → String → Option RemoteCanvas
  | [], _ => none
  | e :: rest, uid => if e.1 = uid then some e.2 else findRC rest uid

/-- Writing a remote-canvas value back under its key, as Map.set on an
existing key: every entry carrying the key is replaced. -/
def updateRemote (uid : String) (r : RemoteCanvas) :
    List (String × RemoteCanvas) → List (String × RemoteCanvas) :=
  List.map (fun e => if e.1 = uid then (uid, r) else e)

/-- getOrCreateRemoteCanvas on the map itself: append a fresh blank canvas
for the author when none exists yet, otherwise leave the map unchanged. -/
def ensureRemote (uid : String) (l : List (String × RemoteCanvas)) :
    List (String × RemoteCanvas) :=
  match findRC l uid with
  | some _ => l
  | none => l ++ [(uid, blankRC)]

/-- drawImage of an opaque-or-transparent source over a destination pixel. -/
def overPx (top bot : Option Nat) : Option Nat :=
  match top with
  | some c => some c
  | none => bot

/-- composeLayers: clear the display canvas, draw the user layer first, then
every remote canvas in map order, each with source-over compositing. -/
def composeLayers (s : CM) : Layer :=
  fun p => s.remotes.foldl (fun acc e => overPx (e.2.canvas p) acc) (s.userLayer p)

/-- The stack update inside pushUndo: shift the oldest entry when the stack
is at MAX_STACK, then push the new snapshot. -/
def pushSnap (st : List DataUrl) (x : DataUrl) : List DataUrl :=
  (if MAX_STACK ≤ st.length then st.tail else st) ++ [x]

/-- pushUndo: snapshot the user layer onto the undo stack with eviction. -/
def pushUndo (s : CM) : CM :=
  { s with undoStack := pushSnap s.undoStack (toDataURL s.userLayer) }

/-- applyDataUrl: decode the data url; on load clear the user canvas, reset
source-over compositing and draw the decoded raster; on error leave the
layer untouched and reject. -/
def applyDataUrl (url : DataUrl) (s : CM) : CM × Except Unit Unit :=
  match decodeDataUrl url with
  | some l =>
      ({ s with userLayer := l
                userCtx := { s.userCtx with comp := CompOp.srcOver } }, Except.ok ())
  | none => (s, Except.error ())

/-- undo: resolve false on an empty undo stack; otherwise push the current
snapshot onto the redo stack, pop the top of the undo stack and apply it,
resolving true on load and rejecting on decode error. -/
def undo (s : CM) : CM × JsResult :=
  match s.undoStack.getLast? with
  | none => (s, JsResult.resolved false)
  | some url =>
      let s1 := { s with redoStack := s.redoStack ++ [toDataURL s.userLayer]
                         undoStack := s.undoStack.dropLast }
      match applyDataUrl url s1 with
      | (s2, Except.ok _) => (s2, JsResult.resolved true)
      | (s2, Except.error _) => (s2, JsResult.rejected)

/-- redo: the mirror image of undo. -/
def redo (s : CM) : CM × JsResult :=
  match s.redoStack.getLast? with
  | none => (s, JsResult.resolved false)
  | some url =>
      let s1 := { s with undoStack := s.undoStack ++ [toDataURL s.userLayer]
                         redoStack := s.redoStack.dropLast }
      match applyDataUrl url s1 with
      | (s2, Except.ok _) => (s2, JsResult.resolved true)
      | (s2, Except.error _) => (s2, JsResult.rejected)

/-- handlePointerDown: on the primary button, capture the pointer, push an
undo snapshot, start the gesture, configure the user context from the
current tool (destination-out and opaque black for the eraser, source-over
and the stroke color for the brush) and begin the path at the pointer. -/
def handlePointerDown (button : Nat) (p : Px) (s : CM) : CM :=
  if button ≠ 0 then s
  else
    let s1 := pushUndo s
    { s1 with
      drawing := true
      lastPos := p
      userCtx :=
        { comp := if s.mode = "eraser" then CompOp.destOut else CompOp.srcOver
          style := if s.mode = "eraser" then 0 else s.strokeColor
          width := s.lineWidth
          path := [p] } }

/-- handlePointerMove: while a gesture is active, extend the path to the
pointer and stroke it onto the user layer with the configured context. -/
def handlePointerMove (raster : List Px → List Px) (p : Px) (s : CM) : CM :=
  if s.drawing = false then s
  else
    let path2 := s.userCtx.path ++ [p]
    { s with
      userLayer := paintPixels s.userCtx.comp s.userCtx.style (raster path2) s.userLayer
      userCtx := { s.userCtx with path := path2 }
      lastPos := p }

/-- handlePointerUp: finish the gesture, close the path and clear the redo
stack (a completed draw invalidates redo history). -/
def handlePointerUp (s : CM) : CM :=
  if s.drawing = false then s
  else { s with drawing := false, redoStack := [] }

/-- clear: push an undo snapshot, wipe the user layer, clear the redo stack. -/
def clear (s : CM) : CM :=
  let s1 := pushUndo s
  { s1 with userLayer := blankLayer, redoStack := [] }

/-- A full local draw gesture: pointer down at a point, a sequence of moves,
pointer up. -/
def drawAction (raster : List Px → List Px) (pd : Px × List Px) (s : CM) : CM :=
  handlePointerUp ((pd.2).foldl (fun st q => handlePointerMove raster q st)
    (handlePointerDown 0 pd.1 s))

/-- Running a list of draw gestures from the constructor state. -/
def runDraws (raster : List Px → List Px) (l0 : Layer) (ds : List (Px × List Px)) : CM :=
  ds.foldl (fun st pd => drawAction raster pd st) (initCM l0)

/-- applyRemoteDrawing: destructure the event; drop it when userId is
missing or empty; fetch or create the author's canvas; set line width,
compositing and stroke style from the event (eraser means destination-out
with opaque black); then dispatch on the phase.  Reading pos.x of a missing
pos raises a TypeError, modelled as Except.error. -/
def applyRemoteDrawing (raster : List Px → List Px) (d : DrawData) (s : CM) :
    Except Unit CM :=
  match d.userId with
  | none => Except.ok s
  | some uid =>
    if uid = "" then Except.ok s
    else
      let r0 := (findRC s.remotes uid).getD blankRC
      let remotes0 := ensureRemote uid s.remotes
      let ctx1 : Ctx :=
        { comp := if d.mode = some "eraser" then CompOp.destOut else CompOp.srcOver
          style := if d.mode = some "eraser" then 0 else d.color.getD r0.ctx.style
          width := d.width.getD r0.ctx.width
          path := r0.ctx.path }
      if d.type = "start" then
        match d.pos with
        | none => Except.error ()
        | some p =>
            let r1 : RemoteCanvas := { r0 with ctx := { ctx1 with path := [p] } }
            Except.ok { s with remotes := updateRemote uid r1 remotes0 }
      else if d.type = "move" then
        match d.pos with
        | none => Except.error ()
        | some p =>
            let path2 := ctx1.path ++ [p]
            let r1 : RemoteCanvas :=
              { canvas := paintPixels ctx1.comp ctx1.style (raster path2) r0.canvas
                ctx := { ctx1 with path := path2 } }
            Except.ok { s with remotes := updateRemote uid r1 remotes0 }
      else
        let r1 : RemoteCanvas := { r0 with ctx := ctx1 }
        Except.ok { s with remotes := updateRemote uid r1 remotes0 }

/-- The socket drawing listener: events authored by the local identity are
skipped; every other event is handed to applyRemoteDrawing. -/
def drawingSocketHandler (raster : List Px → List Px) (localId : String)
    (d : DrawData) (s : CM) : Except Unit CM :=
  if d.userId = some localId then Except.ok s
  else applyRemoteDrawing raster d s

/-- clearRemoteCanvas: warn and return on a missing userId; when the author
has a canvas, wipe its content, keeping its context. -/
def clearRemoteCanvas (uid? : Option String) (s : CM) : CM :=
  match uid? with
  | none => s
  | some uid =>
    if uid = "" then s
    else match findRC s.remotes uid with
      | none => s
      | some r =>
          let r1 : RemoteCanvas := { r with canvas := blankLayer }
          { s with remotes := updateRemote uid r1 s.remotes }

/-- The application's clear-canvas listener: only a non-self author's layer
is cleared, the local layer is never touched. -/
def onClearCanvas (localId : String) (uid? : Option String) (s : CM) : CM :=
  if uid? = some localId then s else clearRemoteCanvas uid? s

/-- The application's canvas-state listener: when the event carries
canvasData, load it into the local user's own layer via applyDataUrl. -/
def onCanvasState (canvasData : Option DataUrl) (s : CM) : CM :=
  match canvasData with
  | none => s
  | some url => (applyDataUrl url s).1

/-- updateRemoteCanvas: warn and return on missing arguments; otherwise
fetch or create the author's canvas and replace its content with the decoded
snapshot; on decode error only log, leaving the content untouched. -/
def updateRemoteCanvas (uid? : Option String) (url? : Option DataUrl) (s : CM) : CM :=
  match uid? with
  | none => s
  | some uid =>
    if uid = "" then s
    else match url? with
      | none => s
      | some url =>
          let r0 := (findRC s.remotes uid).getD blankRC
          let remotes0 := ensureRemote uid s.remotes
          match decodeDataUrl url with
          | none => { s with remotes := remotes0 }
          | some l =>
              let r1 : RemoteCanvas :=
                { canvas := l, ctx := { r0.ctx with comp := CompOp.srcOver } }
              { s with remotes := updateRemote uid r1 remotes0 }

/-- The abstract operations the history stacks react to: a full draw
gesture, a local clear, undo and redo. -/
inductive HistOp where
  | draw : Px → List Px → HistOp
  | clearOp : HistOp
  | undoOp : HistOp
  | redoOp : HistOp

/-- Interpreting one history operation on the manager state. -/
def applyHistOp (raster : List Px → List Px) (s : CM) : HistOp → CM
  | HistOp.draw p pts => drawAction raster (p, pts) s
  | HistOp.clearOp => clear s
  | HistOp.undoOp => (undo s).1
  | HistOp.redoOp => (redo s).1

/-- Interpreting a sequence of history operations from the constructor state. -/
def applyHistOps (raster : List Px → List Px) (ops : List HistOp) (s : CM) : CM :=
  ops.foldl (applyHistOp raster) s

/-- Projecting the state out of a successful handler result. -/
def exOk (r : Except Unit CM) (dflt : CM) : CM :=
  match r with
  | Except.ok s => s
  | Except.error _ => dflt

/-- The shape invariant of the two history stacks: bounded undo stack and
bounded joint size (the redo stack can only hold entries moved off the undo
stack since the last completed action). -/
def stackInv (s : CM) : Prop :=
  s.undoStack.length ≤ MAX_STACK ∧
    s.undoStack.length + s.redoStack.length ≤ MAX_STACK

/-! Concrete sample data used to exercise the theorems on closed inputs. -/

/-- The identity rasterizer: a stroke covers exactly its path samples. -/
def rasterId : List Px → List Px := fun l => l

/-- A sample layer holding one opaque pixel of color 7 at coordinate (1, 1). -/
def layerB : Layer := fun x => if x = ((1 : Int), (1 : Int)) then some 7 else none

/-- A sample layer holding one opaque pixel of color 3 at coordinate (1, 1). -/
def layerA : Layer := fun x => if x = ((1 : Int), (1 : Int)) then some 3 else none

/-- A sample remote canvas for author B. -/
def rcB : RemoteCanvas := { canvas := layerB, ctx := initCtx }

/-- A sample remote canvas for author A. -/
def rcA : RemoteCanvas := { canvas := layerA, ctx := initCtx }

/-- A manager state in eraser mode with one remote author B on file. -/
def sC1 : CM := { initCM blankLayer with mode := "eraser", remotes := [("B", rcB)] }

/-- A remote eraser move event by author A over the pixel B occupies. -/
def dC1 : DrawData :=
  { type := "move", pos := some ((1 : Int), (1 : Int)), mode := some "eraser"
    color := none, width := some 3, userId := some "A" }

/-- A manager state whose undo stack holds one undecodable snapshot. -/
def sC3 : CM := { initCM blankLayer with undoStack := [DataUrl.bad] }

/-- A manager state with an undecodable snapshot on both stacks. -/
def sC3b : CM :=
  { initCM blankLayer with undoStack := [DataUrl.bad], redoStack := [DataUrl.bad] }

/-- A manager state with one decodable snapshot on each stack. -/
def sC6 : CM :=
  { initCM blankLayer with undoStack := [toDataURL layerA]
                           redoStack := [toDataURL layerB] }

/-- A manager state with remote authors A and B on file, B most recent. -/
def sC8 : CM := { initCM blankLayer with remotes := [("A", rcA), ("B", rcB)] }

/-- An inbound drawing event authored by the local identity used below. -/
def dC7 : DrawData :=
  { type := "move", pos := some ((2 : Int), (2 : Int)), mode := some "brush"
    color := some 1, width := some 2, userId := some "me" }

/-- An inbound drawing event with a missing pos field (a malformed point). -/
def dC9 : DrawData :=
  { type := "start", pos := none, mode := some "brush"
    color := some 1, width := some 2, userId := some "u2" }

/-! Helper lemmas: field preservation of the pointer handlers, assoc-list
facts about the remote-canvas map, composition facts and paint facts. -/

theorem handlePointerMove_undoStack (raster : List Px → List Px) (p : Px) (s : CM) :
    (handlePointerMove raster p s).undoStack = s.undoStack := by
  unfold handlePointerMove; split <;> rfl

theorem handlePointerMove_redoStack (raster : List Px → List Px) (p : Px) (s : CM) :
    (handlePointerMove raster p s).redoStack = s.redoStack := by
  unfold handlePointerMove; split <;> rfl

theorem handlePointerMove_drawing (raster : List Px → List Px) (p : Px) (s : CM) :
    (handlePointerMove raster p s).drawing = s.drawing := by
  unfold handlePointerMove; split <;> rfl

theorem handlePointerMove_remotes (raster : List Px → List Px) (p : Px) (s : CM) :
    (handlePointerMove raster p s).remotes = s.remotes := by
  unfold handlePointerMove; split <;> rfl

theorem handlePointerMove_mode (raster : List Px → List Px) (p : Px) (s : CM) :
    (handlePointerMove raster p s).mode = s.mode := by
  unfold handlePointerMove; split <;> rfl

theorem handlePointerDown_remotes (b : Nat) (p : Px) (s : CM) :
    (handlePointerDown b p s).remotes = s.remotes := by
  unfold handlePointerDown; split <;> rfl

theorem handlePointerDown_userLayer (b : Nat) (p : Px) (s : CM) :
    (handlePointerDown b p s).userLayer = s.userLayer := by
  unfold handlePointerDown; split <;> rfl

theorem handlePointerDown_zero_drawing (p : Px) (s : CM) :
    (handlePointerDown 0 p s).drawing = true := by
  unfold handlePointerDown; simp

theorem handlePointerDown_zero_undoStack (p : Px) (s : CM) :
    (handlePointerDown 0 p s).undoStack = pushSnap s.undoStack (toDataURL s.userLayer) := by
  unfold handlePointerDown pushUndo; simp

theorem handlePointerDown_redoStack (b : Nat) (p : Px) (s : CM) :
    (handlePointerDown b p s).redoStack = s.redoStack := by
  unfold handlePointerDown pushUndo; split <;> rfl

theorem handlePointerUp_remotes (s : CM) :
    (handlePointerUp s).remotes = s.remotes := by
  unfold handlePointerUp; split <;> rfl

theorem handlePointerUp_undoStack (s : CM) :
    (handlePointerUp s).undoStack = s.undoStack := by
  unfold handlePointerUp; split <;> rfl

theorem handlePointerUp_userLayer (s : CM) :
    (handlePointerUp s).userLayer = s.userLayer := by
  unfold handlePointerUp; split <;> rfl

theorem movesFold_undoStack (raster : List Px → List Px) (pts : List Px) (s : CM) :
    (pts.foldl (fun st q => handlePointerMove raster q st) s).undoStack = s.undoStack := by
  induction pts generalizing s with
  | nil => rfl
  | cons a pts ih =>
      simp only [List.foldl_cons]
      rw [ih, handlePointerMove_undoStack]

theorem movesFold_redoStack (raster : List Px → List Px) (pts : List Px) (s : CM) :
    (pts.foldl (fun st q => handlePointerMove raster q st) s).redoStack = s.redoStack := by
  induction pts generalizing s with
  | nil => rfl
  | cons a pts ih =>
      simp only [List.foldl_cons]
      rw [ih, handlePointerMove_redoStack]

theorem movesFold_drawing (raster : List Px → List Px) (pts : List Px) (s : CM) :
    (pts.foldl (fun st q => handlePointerMove raster q st) s).drawing = s.drawing := by
  induction pts generalizing s with
  | nil => rfl
  | cons a pts ih =>
      simp only [List.foldl_cons]
      rw [ih, handlePointerMove_drawing]

theorem movesFold_remotes (raster : List Px → List Px) (pts : List Px) (s : CM) :
    (pts.foldl (fun st q => handlePointerMove raster q st) s).remotes = s.remotes := by
  induction pts generalizing s with
  | nil => rfl
  | cons a pts ih =>
      simp only [List.foldl_cons]
      rw [ih, handlePointerMove_remotes]

theorem drawAction_redoStack (raster : List Px → List Px) (pd : Px × List Px) (s : CM) :
    (drawAction raster pd s).redoStack = [] := by
  unfold drawAction handlePointerUp
  rw [movesFold_drawing, handlePointerDown_zero_drawing]
  simp

theorem drawAction_undoStack (raster : List Px → List Px) (pd : Px × List Px) (s : CM) :
    (drawAction raster pd s).undoStack = pushSnap s.undoStack (toDataURL s.userLayer) := by
  unfold drawAction
  rw [handlePointerUp_undoStack, movesFold_undoStack, handlePointerDown_zero_undoStack]

theorem drawAction_remotes (raster : List Px → List Px) (pd : Px × List Px) (s : CM) :
    (drawAction raster pd s).remotes = s.remotes := by
  unfold drawAction
  rw [handlePointerUp_remotes, movesFold_remotes, handlePointerDown_remotes]

theorem pushSnap_ne_nil (st : List DataUrl) (x : DataUrl) : pushSnap st x ≠ [] := by
  unfold pushSnap; simp

theorem findRC_append (l1 l2 : List (String × RemoteCanvas)) (k : String) :
    findRC (l1 ++ l2) k =
      match findRC l1 k with
      | some r => some r
      | none => findRC l2 k := by
  induction l1 with
  | nil => rfl
  | cons e l1 ih =>
      by_cases h : e.1 = k
      · simp [findRC, h]
      · simp [findRC, h, ih]

theorem findRC_none_forall (l : List (String × RemoteCanvas)) (k : String)
    (h : findRC l k = none) : ∀ e ∈ l, e.1 ≠ k := by
  induction l with
  | nil => intro e he; cases he
  | cons a l ih =>
      intro e he
      rw [List.mem_cons] at he
      by_cases ha : a.1 = k
      · simp [findRC, ha] at h
      · rcases he with rfl | he
        · exact ha
        · exact ih (by simpa [findRC, ha] using h) e he

theorem findRC_updateRemote_ne (l : List (String × RemoteCanvas)) (uid k : String)
    (r : RemoteCanvas) (h : k ≠ uid) :
    findRC (updateRemote uid r l) k = findRC l k := by
  induction l with
  | nil => rfl
  | cons a l ih =>
      simp only [updateRemote, List.map_cons] at ih ⊢
      by_cases ha : a.1 = uid
      · rw [if_pos ha]
        have h1 : ¬ (uid, r).1 = k := fun hh => h (by simpa using hh.symm)
        have h2 : ¬ a.1 = k := by rw [ha]; exact fun hh => h hh.symm
        simp only [findRC]
        rw [if_neg h1, if_neg h2]
        exact ih
      · rw [if_neg ha]
        simp only [findRC]
        by_cases hak : a.1 = k
        · rw [if_pos hak, if_pos hak]
        · rw [if_neg hak, if_neg hak]
          exact ih

theorem findRC_updateRemote_self (l : List (String × RemoteCanvas)) (uid : String)
    (r r0 : RemoteCanvas) (h : findRC l uid = some r0) :
    findRC (updateRemote uid r l) uid = some r := by
  induction l with
  | nil => simp [findRC] at h
  | cons a l ih =>
      by_cases ha : a.1 = uid
      · simp [updateRemote, findRC, ha]
      · simp [findRC, ha] at h
        simp [updateRemote, findRC, ha] at ih ⊢
        simpa [updateRemote] using ih h

theorem updateRemote_eq_self (l : List (String × RemoteCanvas)) (uid : String)
    (r : RemoteCanvas) (h : ∀ e ∈ l, e.1 ≠ uid) : updateRemote uid r l = l := by
  induction l with
  | nil => rfl
  | cons a l ih =>
      have ha : a.1 ≠ uid := h a (by simp)
      simp only [updateRemote, List.map_cons, if_neg ha]
      have := ih (fun e he => h e (by simp [he]))
      simpa [updateRemote] using this

theorem updateRemote_append (l1 l2 : List (String × RemoteCanvas)) (uid : String)
    (r : RemoteCanvas) :
    updateRemote uid r (l1 ++ l2) = updateRemote uid r l1 ++ updateRemote uid r l2 := by
  simp [updateRemote]

theorem foldl_overPx_none (p : Px) (post : List (String × RemoteCanvas)) (acc : Option Nat)
    (h : ∀ e ∈ post, e.2.canvas p = none) :
    post.foldl (fun acc e => overPx (e.2.canvas p) acc) acc = acc := by
  induction post generalizing acc with
  | nil => rfl
  | cons a post ih =>
      have ha : a.2.canvas p = none := h a (by simp)
      simp only [List.foldl_cons, ha]
      exact ih acc (fun e he => h e (by simp [he]))

theorem composeLayers_split (s : CM) (pre post : List (String × RemoteCanvas))
    (B : String) (rB : RemoteCanvas) (p : Px) (c : Nat)
    (hs : s.remotes = pre ++ (B, rB) :: post)
    (hc : rB.canvas p = some c)
    (hpost : ∀ e ∈ post, e.2.canvas p = none) :
    composeLayers s p = some c := by
  unfold composeLayers
  rw [hs, List.foldl_append, List.foldl_cons]
  rw [foldl_overPx_none p post _ hpost]
  simp [overPx, hc]

theorem paintPixels_destOut_cases (style : Nat) (pts : List Px) (l : Layer) (x : Px) :
    paintPixels CompOp.destOut style pts l x = none ∨
      paintPixels CompOp.destOut style pts l x = l x := by
  induction pts generalizing l with
  | nil => right; rfl
  | cons a pts ih =>
      have step : paintPixels CompOp.destOut style (a :: pts) l
          = paintPixels CompOp.destOut style pts (paintPixel CompOp.destOut style l a) := rfl
      rw [step]
      rcases ih (paintPixel CompOp.destOut style l a) with h | h
      · left; exact h
      · rw [h]
        unfold paintPixel
        by_cases hx : x = a
        · left; simp [hx]
        · right; simp [hx]

/-! Helper lemmas about undo, redo and the history stacks. -/

theorem undo_empty (s : CM) (h : s.undoStack = []) :
    undo s = (s, JsResult.resolved false) := by
  unfold undo
  rw [h]
  rfl

theorem redo_empty (s : CM) (h : s.redoStack = []) :
    redo s = (s, JsResult.resolved false) := by
  unfold redo
  rw [h]
  rfl

theorem undo_stacks (s : CM) (url : DataUrl) (h : s.undoStack.getLast? = some url) :
    ((undo s).1).undoStack = s.undoStack.dropLast ∧
      ((undo s).1).redoStack = s.redoStack ++ [toDataURL s.userLayer] := by
  unfold undo
  rw [h]
  cases hd : decodeDataUrl url <;> simp [applyDataUrl, hd]

theorem redo_stacks (s : CM) (url : DataUrl) (h : s.redoStack.getLast? = some url) :
    ((redo s).1).redoStack = s.redoStack.dropLast ∧
      ((redo s).1).undoStack = s.undoStack ++ [toDataURL s.userLayer] := by
  unfold redo
  rw [h]
  cases hd : decodeDataUrl url <;> simp [applyDataUrl, hd]

theorem redo_getLast_good (s : CM) (L : Layer)
    (h : s.redoStack.getLast? = some (toDataURL L)) : ((redo s).1).userLayer = L := by
  unfold redo
  rw [h]
  simp [applyDataUrl, decodeDataUrl, toDataURL]

theorem undo_redo_userLayer (s : CM) (hug : s.undoStack = [] → s.redoStack = []) :
    ((redo ((undo s).1)).1).userLayer = s.userLayer := by
  cases h : s.undoStack.getLast? with
  | none =>
      have h0 : s.undoStack = [] := List.getLast?_eq_none_iff.mp h
      rw [undo_empty s h0]
      rw [redo_empty s (hug h0)]
  | some url =>
      have hr : ((undo s).1).redoStack.getLast? = some (toDataURL s.userLayer) := by
        rw [(undo_stacks s url h).2]
        exact List.getLast?_concat _
      exact redo_getLast_good _ _ hr

theorem runDraws_append (raster : List Px → List Px) (l0 : Layer)
    (ds : List (Px × List Px)) (d : Px × List Px) :
    runDraws raster l0 (ds ++ [d]) = drawAction raster d (runDraws raster l0 ds) := by
  unfold runDraws
  rw [List.foldl_append]
  rfl

theorem runDraws_undo_empty_imp (raster : List Px → List Px) (l0 : Layer)
    (ds : List (Px × List Px)) :
    (runDraws raster l0 ds).undoStack = [] → (runDraws raster l0 ds).redoStack = [] := by
  induction ds using List.reverseRecOn with
  | nil => intro _; rfl
  | append_singleton ds d _ =>
      intro h
      exfalso
      rw [runDraws_append, drawAction_undoStack] at h
      exact pushSnap_ne_nil _ _ h

theorem pushSnap_length_le (st : List DataUrl) (x : DataUrl)
    (h : st.length ≤ MAX_STACK) : (pushSnap st x).length ≤ MAX_STACK := by
  unfold pushSnap
  by_cases hl : MAX_STACK ≤ st.length
  · rw [if_pos hl]
    simp only [List.length_append, List.length_tail, List.length_cons, List.length_nil]
    unfold MAX_STACK at hl h ⊢
    omega
  · rw [if_neg hl]
    simp only [List.length_append, List.length_cons, List.length_nil]
    unfold MAX_STACK at hl ⊢
    omega

theorem clear_undoStack (s : CM) :
    (clear s).undoStack = pushSnap s.undoStack (toDataURL s.userLayer) := rfl

theorem clear_redoStack (s : CM) : (clear s).redoStack = [] := rfl

theorem getLast?_some_ne_nil {α : Type} {l : List α} {a : α}
    (h : l.getLast? = some a) : l ≠ [] := by
  intro h0
  rw [h0] at h
  cases h

theorem applyHistOp_inv (raster : List Px → List Px) (op : HistOp) (s : CM)
    (h : stackInv s) : stackInv (applyHistOp raster s op) := by
  cases op with
  | draw p pts =>
      constructor
      · rw [show (applyHistOp raster s (HistOp.draw p pts)).undoStack
              = pushSnap s.undoStack (toDataURL s.userLayer) from drawAction_undoStack raster (p, pts) s]
        exact pushSnap_length_le _ _ h.1
      · rw [show (applyHistOp raster s (HistOp.draw p pts)).undoStack
              = pushSnap s.undoStack (toDataURL s.userLayer) from drawAction_undoStack raster (p, pts) s]
        rw [show (applyHistOp raster s (HistOp.draw p pts)).redoStack = [] from
              drawAction_redoStack raster (p, pts) s]
        simpa using pushSnap_length_le _ (toDataURL s.userLayer) h.1
  | clearOp =>
      constructor
      · rw [show (applyHistOp raster s HistOp.clearOp).undoStack
              = pushSnap s.undoStack (toDataURL s.userLayer) from clear_undoStack s]
        exact pushSnap_length_le _ _ h.1
      · rw [show (applyHistOp raster s HistOp.clearOp).undoStack
              = pushSnap s.undoStack (toDataURL s.userLayer) from clear_undoStack s]
        rw [show (applyHistOp raster s HistOp.clearOp).redoStack = [] from clear_redoStack s]
        simpa using pushSnap_length_le _ (toDataURL s.userLayer) h.1
  | undoOp =>
      cases hu : s.undoStack.getLast? with
      | none =>
          have h0 : s.undoStack = [] := List.getLast?_eq_none_iff.mp hu
          show stackInv (undo s).1
          rw [undo_empty s h0]
          exact h
      | some url =>
          have hne : s.undoStack ≠ [] := getLast?_some_ne_nil hu
          have hpos : 0 < s.undoStack.length := List.length_pos.mpr hne
          have hst := undo_stacks s url hu
          obtain ⟨h1, h2⟩ := h
          constructor
          · show ((undo s).1).undoStack.length ≤ MAX_STACK
            rw [hst.1, List.length_dropLast]
            omega
          · show ((undo s).1).undoStack.length + ((undo s).1).redoStack.length ≤ MAX_STACK
            rw [hst.1, hst.2, List.length_dropLast, List.length_append]
            simp only [List.length_cons, List.length_nil]
            omega
  | redoOp =>
      cases hu : s.redoStack.getLast? with
      | none =>
          have h0 : s.redoStack = [] := List.getLast?_eq_none_iff.mp hu
          show stackInv (redo s).1
          rw [redo_empty s h0]
          exact h
      | some url =>
          have hne : s.redoStack ≠ [] := getLast?_some_ne_nil hu
          have hpos : 0 < s.redoStack.length := List.length_pos.mpr hne
          have hst := redo_stacks s url hu
          obtain ⟨h1, h2⟩ := h
          constructor
          · show ((redo s).1).undoStack.length ≤ MAX_STACK
            rw [hst.2, List.length_append]
            simp only [List.length_cons, List.length_nil]
            omega
          · show ((redo s).1).undoStack.length + ((redo s).1).redoStack.length ≤ MAX_STACK
            rw [hst.1, hst.2, List.length_dropLast, List.length_append]
            simp only [List.length_cons, List.length_nil]
            omega

theorem applyHistOps_inv (raster : List Px → List Px) (ops : List HistOp) (s : CM)
    (h : stackInv s) : stackInv (applyHistOps raster ops s) := by
  induction ops generalizing s with
  | nil => exact h
  | cons op ops ih => exact ih _ (applyHistOp_inv raster op s h)

theorem pushSnap_foldl_drop (xs : List DataUrl) :
    List.foldl pushSnap [] xs = xs.drop (xs.length - MAX_STACK) := by
  induction xs using List.reverseRecOn with
  | nil => rfl
  | append_singleton xs x ih =>
      rw [List.foldl_append]
      simp only [List.foldl_cons, List.foldl_nil]
      rw [ih]
      by_cases h : MAX_STACK ≤ xs.length
      · have hM : MAX_STACK = 50 := rfl
        have hlen : (xs.drop (xs.length - MAX_STACK)).length = MAX_STACK := by
          rw [List.length_drop]
          omega
        unfold pushSnap
        rw [if_pos (le_of_eq hlen.symm)]
        rw [List.tail_drop]
        have h1 : xs.length + 1 - MAX_STACK ≤ xs.length := by
          rw [hM] at h ⊢
          omega
        rw [List.length_append]
        simp only [List.length_cons, List.length_nil]
        rw [List.drop_append_of_le_length h1]
        have h2 : xs.length - MAX_STACK + 1 = xs.length + 1 - MAX_STACK := by omega
        rw [h2]
      · have h0 : xs.length - MAX_STACK = 0 := by omega
        rw [h0, List.drop_zero]
        unfold pushSnap
        rw [if_neg h]
        rw [List.length_append]
        simp only [List.length_cons, List.length_nil]
        have h1 : xs.length + 1 - MAX_STACK = 0 := by
          unfold MAX_STACK at h ⊢
          omega
        rw [h1, List.drop_zero]

theorem applyRemoteDrawing_ok_state (raster : List Px → List Px) (d : DrawData)
    (s s' : CM) (A : String) (hA : d.userId = some A) (hAne : A ≠ "")
    (hok : applyRemoteDrawing raster d s = Except.ok s') :
    ∃ r' : RemoteCanvas,
      s' = { s with remotes := updateRemote A r' (ensureRemote A s.remotes) }
      ∧ r'.ctx.comp = (if d.mode = some "eraser" then CompOp.destOut else CompOp.srcOver)
      ∧ (r'.canvas = ((findRC s.remotes A).getD blankRC).canvas
         ∨ ∃ pts, r'.canvas = paintPixels
             (if d.mode = some "eraser" then CompOp.destOut else CompOp.srcOver)
             (if d.mode = some "eraser" then 0
              else d.color.getD ((findRC s.remotes A).getD blankRC).ctx.style)
             pts ((findRC s.remotes A).getD blankRC).canvas) := by
  simp only [applyRemoteDrawing, hA, if_neg hAne] at hok
  by_cases ht1 : d.type = "start"
  · rw [if_pos ht1] at hok
    cases hp : d.pos with
    | none => rw [hp] at hok; cases hok
    | some pa =>
        rw [hp] at hok
        simp only [Except.ok.injEq] at hok
        subst hok
        refine ⟨_, rfl, rfl, Or.inl rfl⟩
  · rw [if_neg ht1] at hok
    by_cases ht2 : d.type = "move"
    · rw [if_pos ht2] at hok
      cases hp : d.pos with
      | none => rw [hp] at hok; cases hok
      | some pa =>
          rw [hp] at hok
          simp only [Except.ok.injEq] at hok
          subst hok
          exact ⟨_, rfl, rfl, Or.inr ⟨_, rfl⟩⟩
    · rw [if_neg ht2] at hok
      simp only [Except.ok.injEq] at hok
      subst hok
      exact ⟨_, rfl, rfl, Or.inl rfl⟩

theorem findRC_ensureRemote (l : List (String × RemoteCanvas)) (uid : String) :
    ∃ r0, findRC (ensureRemote uid l) uid = some r0 := by
  unfold ensureRemote
  cases h : findRC l uid with
  | some r => exact ⟨r, h⟩
  | none =>
      refine ⟨blankRC, ?_⟩
      rw [findRC_append, h]
      simp [findRC]

theorem findRC_ensureRemote_ne (l : List (String × RemoteCanvas)) (uid k : String)
    (h : k ≠ uid) : findRC (ensureRemote uid l) k = findRC l k := by
  unfold ensureRemote
  cases hf : findRC l uid with
  | some r => rfl
  | none =>
      rw [findRC_append]
      cases hk : findRC l k with
      | some r => rfl
      | none =>
          have : uid ≠ k := fun hh => h hh.symm
          simp [findRC, this]

theorem updateRemote_split (pre post : List (String × RemoteCanvas)) (A B : String)
    (rB r' : RemoteCanvas) (hBA : B ≠ A) (p : Px)
    (hpost : ∀ e ∈ post, e.1 ≠ A → e.2.canvas p = none)
    (hrp : r'.canvas p = none) :
    ∃ pre2 post2, updateRemote A r' (pre ++ (B, rB) :: post) = pre2 ++ (B, rB) :: post2
      ∧ ∀ e ∈ post2, e.2.canvas p = none := by
  refine ⟨updateRemote A r' pre, updateRemote A r' post, ?_, ?_⟩
  · simp only [updateRemote, List.map_append, List.map_cons]
    congr 1
    simp [hBA]
  · intro e he
    simp only [updateRemote, List.mem_map] at he
    obtain ⟨e0, he0, rfl⟩ := he
    by_cases hA0 : e0.1 = A
    · rw [if_pos hA0]
      exact hrp
    · rw [if_neg hA0]
      exact hpost e0 he0 hA0

theorem updateRemote_ensure_split (pre post : List (String × RemoteCanvas)) (A B : String)
    (rB r' : RemoteCanvas) (hBA : B ≠ A) (p : Px)
    (hpost : ∀ e ∈ post, e.1 ≠ A → e.2.canvas p = none)
    (hrp : r'.canvas p = none) :
    ∃ pre2 post2,
      updateRemote A r' (ensureRemote A (pre ++ (B, rB) :: post)) = pre2 ++ (B, rB) :: post2
      ∧ ∀ e ∈ post2, e.2.canvas p = none := by
  unfold ensureRemote
  cases hf : findRC (pre ++ (B, rB) :: post) A with
  | some r0 => exact updateRemote_split pre post A B rB r' hBA p hpost hrp
  | none =>
      have hall := findRC_none_forall _ _ hf
      have heq : updateRemote A r' ((pre ++ (B, rB) :: post) ++ [(A, blankRC)])
          = (pre ++ (B, rB) :: post) ++ [(A, r')] := by
        rw [updateRemote_append]
        rw [updateRemote_eq_self _ _ _ hall]
        simp [updateRemote]
      refine ⟨pre, post ++ [(A, r')], ?_, ?_⟩
      · rw [heq]
        simp
      · intro e he
        rw [List.mem_append] at he
        rcases he with he | he
        · exact hpost e he
            (hall e (List.mem_append_right _ (List.mem_cons_of_mem _ he)))
        · have : e = (A, r') := by simpa using he
          rw [this]
          exact hrp

theorem handlePointerDown_comp (p : Px) (s : CM) (h : s.mode = "eraser") :
    (handlePointerDown 0 p s).userCtx.comp = CompOp.destOut := by
  unfold handlePointerDown
  simp [h]

/-! Claim theorems. -/

/-- Claim C2: for every initial local-layer content and every sequence of
local draw actions that fits within stack capacity, performing undo and then
redo restores the local layer's pixel content to exactly what it was
immediately before the undo. -/
theorem c2_undo_redo_round_trip (raster : List Px → List Px) (l0 : Layer)
    (ds : List (Px × List Px)) (p : Px) (hcap : ds.length ≤ MAX_STACK) :
    ((redo ((undo (runDraws raster l0 ds)).1)).1).userLayer p
      = (runDraws raster l0 ds).userLayer p := by
  exact congrFun
    (undo_redo_userLayer (runDraws raster l0 ds) (runDraws_undo_empty_imp raster l0 ds)) p

/-- Witness for C2 at one concrete draw over the blank layer. -/
theorem c2_undo_redo_round_trip_witness :
    ((redo ((undo (runDraws rasterId blankLayer [(((1 : Int), (1 : Int)), [((2 : Int), (2 : Int))])])).1)).1).userLayer ((0 : Int), (0 : Int))
      = (runDraws rasterId blankLayer [(((1 : Int), (1 : Int)), [((2 : Int), (2 : Int))])]).userLayer ((0 : Int), (0 : Int)) :=
  c2_undo_redo_round_trip rasterId blankLayer
    [(((1 : Int), (1 : Int)), [((2 : Int), (2 : Int))])] ((0 : Int), (0 : Int)) (by decide)

/-- Claim C5: a new local draw action after an undo clears the redo stack,
so in draw; undo; draw; redo the final redo resolves false and leaves the
state unchanged. -/
theorem c5_redo_invalidated_by_new_draw (raster : List Px → List Px) (s : CM)
    (d1 d2 : Px × List Px) :
    (drawAction raster d2 ((undo (drawAction raster d1 s)).1)).redoStack = []
    ∧ redo (drawAction raster d2 ((undo (drawAction raster d1 s)).1))
        = (drawAction raster d2 ((undo (drawAction raster d1 s)).1),
           JsResult.resolved false) :=
  ⟨drawAction_redoStack _ _ _, redo_empty _ (drawAction_redoStack _ _ _)⟩

/-- Claim C6: undo on an empty undo stack resolves false and changes
nothing, redo on an empty redo stack likewise; otherwise undo pushes the
current local snapshot onto the redo stack, pops and restores the top of the
undo stack and resolves true, with redo the mirror operation. -/
theorem c6_undo_redo_contract (s : CM) :
    (s.undoStack = [] → undo s = (s, JsResult.resolved false))
    ∧ (s.redoStack = [] → redo s = (s, JsResult.resolved false))
    ∧ (∀ url L, s.undoStack.getLast? = some url → decodeDataUrl url = some L →
        undo s = ({ s with userLayer := L
                           userCtx := { s.userCtx with comp := CompOp.srcOver }
                           undoStack := s.undoStack.dropLast
                           redoStack := s.redoStack ++ [toDataURL s.userLayer] },
                   JsResult.resolved true))
    ∧ (∀ url L, s.redoStack.getLast? = some url → decodeDataUrl url = some L →
        redo s = ({ s with userLayer := L
                           userCtx := { s.userCtx with comp := CompOp.srcOver }
                           redoStack := s.redoStack.dropLast
                           undoStack := s.undoStack ++ [toDataURL s.userLayer] },
                   JsResult.resolved true)) := by
  refine ⟨undo_empty s, redo_empty s, ?_, ?_⟩
  · intro url L h1 h2
    unfold undo
    rw [h1]
    simp [applyDataUrl, h2]
  · intro url L h1 h2
    unfold redo
    rw [h1]
    simp [applyDataUrl, h2]

/-- Witness for C6: the empty-stack cases on the constructor state and the
populated cases on a state holding one decodable snapshot per stack. -/
theorem c6_undo_redo_contract_witness :
    undo (initCM blankLayer) = (initCM blankLayer, JsResult.resolved false)
    ∧ redo (initCM blankLayer) = (initCM blankLayer, JsResult.resolved false)
    ∧ undo sC6 = ({ sC6 with userLayer := layerA
                             userCtx := { sC6.userCtx with comp := CompOp.srcOver }
                             undoStack := sC6.undoStack.dropLast
                             redoStack := sC6.redoStack ++ [toDataURL sC6.userLayer] },
                  JsResult.resolved true)
    ∧ redo sC6 = ({ sC6 with userLayer := layerB
                             userCtx := { sC6.userCtx with comp := CompOp.srcOver }
                             redoStack := sC6.redoStack.dropLast
                             undoStack := sC6.undoStack ++ [toDataURL sC6.userLayer] },
                  JsResult.resolved true) :=
  ⟨(c6_undo_redo_contract (initCM blankLayer)).1 rfl,
   (c6_undo_redo_contract (initCM blankLayer)).2.1 rfl,
   (c6_undo_redo_contract sC6).2.2.1 (toDataURL layerA) layerA rfl rfl,
   (c6_undo_redo_contract sC6).2.2.2 (toDataURL layerB) layerB rfl rfl⟩

/-- Claim C7: an inbound drawing event whose userId equals the local
identity is discarded by the self-authorship check, so no layer is mutated. -/
theorem c7_self_drawing_ignored (raster : List Px → List Px) (localId : String)
    (d : DrawData) (s : CM) (h : d.userId = some localId) :
    drawingSocketHandler raster localId d s = Except.ok s := by
  unfold drawingSocketHandler
  rw [if_pos h]

/-- Witness for C7 at a concrete self-authored event. -/
theorem c7_self_drawing_ignored_witness :
    drawingSocketHandler rasterId "me" dC7 (initCM blankLayer)
      = Except.ok (initCM blankLayer) :=
  c7_self_drawing_ignored rasterId "me" dC7 (initCM blankLayer) rfl

/-- Claim C10: an inbound canvas-state event carrying canvasData is decoded
into the local user's own layer, wholly replacing its content, while every
remote author's layer is left untouched. -/
theorem c10_canvas_state_loads_user_layer (url : DataUrl) (L : Layer) (s : CM)
    (p : Px) (h : decodeDataUrl url = some L) :
    (onCanvasState (some url) s).userLayer p = L p
    ∧ (onCanvasState (some url) s).remotes = s.remotes := by
  unfold onCanvasState applyDataUrl
  simp [h]

/-- Witness for C10 at a concrete decodable snapshot. -/
theorem c10_canvas_state_loads_user_layer_witness :
    (onCanvasState (some (toDataURL layerA)) sC8).userLayer ((1 : Int), (1 : Int))
        = layerA ((1 : Int), (1 : Int))
    ∧ (onCanvasState (some (toDataURL layerA)) sC8).remotes = sC8.remotes :=
  c10_canvas_state_loads_user_layer (toDataURL layerA) layerA sC8
    ((1 : Int), (1 : Int)) rfl

/-- Claim C3 counterexample: when the popped snapshot fails to decode, undo
does not report failure through its boolean result; the promise is rejected
instead, so the result is neither resolved false nor resolved true. -/
theorem c3_decode_failure_counterexample :
    (undo sC3).2 = JsResult.rejected
    ∧ (undo sC3).2 ≠ JsResult.resolved false
    ∧ (undo sC3).2 ≠ JsResult.resolved true := by
  refine ⟨rfl, ?_, ?_⟩ <;> intro h <;> cases h

/-- Claim C3 amended: on decode failure the local layer keeps its last good
content and the caller sees a rejection, never a resolved-true success (the
failure indicator is the rejection, not a false boolean). -/
theorem c3_decode_failure_amended (s : CM) (url : DataUrl) (p : Px)
    (hbad : decodeDataUrl url = none) :
    (s.undoStack.getLast? = some url →
      ((undo s).1).userLayer p = s.userLayer p ∧ (undo s).2 = JsResult.rejected)
    ∧ (s.redoStack.getLast? = some url →
      ((redo s).1).userLayer p = s.userLayer p ∧ (redo s).2 = JsResult.rejected) := by
  constructor
  · intro h
    unfold undo
    rw [h]
    simp [applyDataUrl, hbad]
  · intro h
    unfold redo
    rw [h]
    simp [applyDataUrl, hbad]

/-- Witness for the amended C3 on a state with a bad snapshot on each stack. -/
theorem c3_decode_failure_amended_witness :
    (((undo sC3b).1).userLayer ((0 : Int), (0 : Int))
        = sC3b.userLayer ((0 : Int), (0 : Int)) ∧ (undo sC3b).2 = JsResult.rejected)
    ∧ (((redo sC3b).1).userLayer ((0 : Int), (0 : Int))
        = sC3b.userLayer ((0 : Int), (0 : Int)) ∧ (redo sC3b).2 = JsResult.rejected) :=
  ⟨(c3_decode_failure_amended sC3b DataUrl.bad ((0 : Int), (0 : Int)) rfl).1 rfl,
   (c3_decode_failure_amended sC3b DataUrl.bad ((0 : Int), (0 : Int)) rfl).2 rfl⟩

/-- Claim C9 evidence: a drawing event with a missing point is not dropped;
reading pos.x of the missing point throws a TypeError out of the handler
(the error result), while the guarded malformed cases are dropped cleanly:
a missing userId leaves the state untouched and an undecodable snapshot in
updateRemoteCanvas leaves every existing layer's content untouched (only a
fresh blank canvas for the author is created). -/
theorem c9_malformed_point_throws :
    applyRemoteDrawing rasterId dC9 (initCM blankLayer) = Except.error ()
    ∧ applyRemoteDrawing rasterId ({ dC9 with userId := none }) (initCM blankLayer)
        = Except.ok (initCM blankLayer)
    ∧ updateRemoteCanvas (some "u2") (some DataUrl.bad) (initCM blankLayer)
        = { initCM blankLayer with remotes := [("u2", blankRC)] } :=
  ⟨rfl, rfl, rfl⟩

/-- Claim C4: after every sequence of history operations the undo and redo
stacks never exceed MAX_STACK entries, and pushUndo evicts oldest-first, so
pushing any number of snapshots from empty keeps exactly the newest
MAX_STACK of them, in order. -/
theorem c4_history_stack_bounds (raster : List Px → List Px) (ops : List HistOp)
    (xs : List DataUrl) :
    ((applyHistOps raster ops (initCM blankLayer)).undoStack.length ≤ MAX_STACK
      ∧ (applyHistOps raster ops (initCM blankLayer)).redoStack.length ≤ MAX_STACK)
    ∧ List.foldl pushSnap [] xs = xs.drop (xs.length - MAX_STACK) := by
  constructor
  · have h0 : stackInv (initCM blankLayer) := ⟨by decide, by decide⟩
    obtain ⟨h1, h2⟩ := applyHistOps_inv raster ops (initCM blankLayer) h0
    exact ⟨h1, by omega⟩
  · exact pushSnap_foldl_drop xs

/-- Claim C1: an eraser stroke by author A, applied remotely through
applyRemoteDrawing or locally through handlePointerDown and
handlePointerMove, uses destination-out compositing on A's own layer only:
the local layer and every other author's layer keep every pixel, A's layer
only ever loses pixels, and a stroke of another author B that was topmost at
a pixel stays visible in the composed output. -/
theorem c1_eraser_layer_isolation (raster : List Px → List Px) (s s' : CM)
    (A B : String) (d : DrawData) (pre post : List (String × RemoteCanvas))
    (rB : RemoteCanvas) (c : Nat) (p pt x q : Px)
    (hA : d.userId = some A) (hAne : A ≠ "") (hm : d.mode = some "eraser")
    (hok : applyRemoteDrawing raster d s = Except.ok s')
    (hBA : B ≠ A)
    (hsplit : s.remotes = pre ++ (B, rB) :: post)
    (hc : rB.canvas p = some c)
    (hpost : ∀ e ∈ post, e.2.canvas p = none)
    (hmode : s.mode = "eraser")
    (hgone : ((findRC s'.remotes A).getD blankRC).canvas p = none) :
    s'.userLayer q = s.userLayer q
    ∧ findRC s'.remotes B = findRC s.remotes B
    ∧ (findRC s'.remotes A).map (fun r => r.ctx.comp) = some CompOp.destOut
    ∧ (((findRC s'.remotes A).getD blankRC).canvas x = none
        ∨ ((findRC s'.remotes A).getD blankRC).canvas x
            = ((findRC s.remotes A).getD blankRC).canvas x)
    ∧ composeLayers s' p = some c
    ∧ (handlePointerDown 0 pt s).remotes = s.remotes
    ∧ (handlePointerMove raster pt s).remotes = s.remotes
    ∧ (handlePointerDown 0 pt s).userCtx.comp = CompOp.destOut
    ∧ composeLayers (handlePointerMove raster pt (handlePointerDown 0 pt s)) p = some c := by
  obtain ⟨r', hs', hcomp, hcanv⟩ := applyRemoteDrawing_ok_state raster d s s' A hA hAne hok
  simp only [hm, if_pos] at hcomp hcanv
  have hfa : findRC s'.remotes A = some r' := by
    rw [hs']
    obtain ⟨r0, hr0⟩ := findRC_ensureRemote s.remotes A
    exact findRC_updateRemote_self _ _ _ _ hr0
  have hgone' : r'.canvas p = none := by
    rw [hfa] at hgone
    simpa using hgone
  refine ⟨?_, ?_, ?_, ?_, ?_, handlePointerDown_remotes 0 pt s,
    handlePointerMove_remotes raster pt s, handlePointerDown_comp pt s hmode, ?_⟩
  · rw [hs']
  · rw [hs']
    show findRC (updateRemote A r' (ensureRemote A s.remotes)) B = findRC s.remotes B
    rw [findRC_updateRemote_ne _ _ _ _ hBA, findRC_ensureRemote_ne _ _ _ hBA]
  · rw [hfa]
    simp [hcomp]
  · rw [hfa]
    rcases hcanv with hcv | ⟨pts, hcv⟩
    · right
      simp [hcv]
    · have := paintPixels_destOut_cases 0 pts ((findRC s.remotes A).getD blankRC).canvas x
      rcases this with hh | hh
      · left
        simp [hcv, hh]
      · right
        simp [hcv, hh]
  · have hrem : s'.remotes
        = updateRemote A r' (ensureRemote A (pre ++ (B, rB) :: post)) := by
      rw [hs', hsplit]
    obtain ⟨pre2, post2, heq, hp2⟩ :=
      updateRemote_ensure_split pre post A B rB r' hBA p
        (fun e he _ => hpost e he) hgone'
    exact composeLayers_split s' pre2 post2 B rB p c (hrem.trans heq) hc hp2
  · have hs2 : (handlePointerMove raster pt (handlePointerDown 0 pt s)).remotes
        = pre ++ (B, rB) :: post := by
      rw [handlePointerMove_remotes, handlePointerDown_remotes, hsplit]
    exact composeLayers_split _ pre post B rB p c hs2 hc hpost

/-- Witness for C1: author A erases over the pixel where B drew; B's layer
entry and the composed output keep B's stroke, and A's layer only lost
pixels, with destination-out compositing installed on A's context. -/
theorem c1_eraser_layer_isolation_witness :
    (exOk (applyRemoteDrawing rasterId dC1 sC1) sC1).userLayer ((0 : Int), (0 : Int))
        = sC1.userLayer ((0 : Int), (0 : Int))
    ∧ findRC (exOk (applyRemoteDrawing rasterId dC1 sC1) sC1).remotes "B"
        = findRC sC1.remotes "B"
    ∧ (findRC (exOk (applyRemoteDrawing rasterId dC1 sC1) sC1).remotes "A").map
          (fun r => r.ctx.comp) = some CompOp.destOut
    ∧ (((findRC (exOk (applyRemoteDrawing rasterId dC1 sC1) sC1).remotes "A").getD
            blankRC).canvas ((3 : Int), (3 : Int)) = none
        ∨ ((findRC (exOk (applyRemoteDrawing rasterId dC1 sC1) sC1).remotes "A").getD
            blankRC).canvas ((3 : Int), (3 : Int))
            = ((findRC sC1.remotes "A").getD blankRC).canvas ((3 : Int), (3 : Int)))
    ∧ composeLayers (exOk (applyRemoteDrawing rasterId dC1 sC1) sC1)
        ((1 : Int), (1 : Int)) = some 7
    ∧ (handlePointerDown 0 ((2 : Int), (2 : Int)) sC1).remotes = sC1.remotes
    ∧ (handlePointerMove rasterId ((2 : Int), (2 : Int)) sC1).remotes = sC1.remotes
    ∧ (handlePointerDown 0 ((2 : Int), (2 : Int)) sC1).userCtx.comp = CompOp.destOut
    ∧ composeLayers (handlePointerMove rasterId ((2 : Int), (2 : Int))
        (handlePointerDown 0 ((2 : Int), (2 : Int)) sC1)) ((1 : Int), (1 : Int)) = some 7 :=
  c1_eraser_layer_isolation rasterId sC1 (exOk (applyRemoteDrawing rasterId dC1 sC1) sC1)
    "A" "B" dC1 [] [] rcB 7 ((1 : Int), (1 : Int)) ((2 : Int), (2 : Int))
    ((3 : Int), (3 : Int)) ((0 : Int), (0 : Int))
    rfl (by decide) rfl rfl (by decide) rfl (by decide) (by simp) rfl (by decide)

/-- Claim C8: an inbound clear event from a non-self author A wipes only A's
layer content; the local layer and every other author's layer entry are
unchanged, and a stroke of another author B that was topmost at a pixel is
still shown by the composed output. -/
theorem c8_remote_clear_isolation (localId A B k : String) (s : CM)
    (pre post : List (String × RemoteCanvas)) (rB : RemoteCanvas) (c : Nat) (p q x : Px)
    (hA : A ≠ localId) (hAne : A ≠ "") (hBA : B ≠ A) (hk : k ≠ A)
    (hsplit : s.remotes = pre ++ (B, rB) :: post)
    (hc : rB.canvas p = some c)
    (hpost : ∀ e ∈ post, e.1 ≠ A → e.2.canvas p = none) :
    (onClearCanvas localId (some A) s).userLayer q = s.userLayer q
    ∧ findRC (onClearCanvas localId (some A) s).remotes k = findRC s.remotes k
    ∧ ((findRC (onClearCanvas localId (some A) s).remotes A).getD blankRC).canvas x = none
    ∧ composeLayers (onClearCanvas localId (some A) s) p = some c := by
  have hAl : ¬ ((some A : Option String) = some localId) := by simpa using hA
  have h1 : onClearCanvas localId (some A) s = clearRemoteCanvas (some A) s := by
    unfold onClearCanvas
    rw [if_neg hAl]
  rw [h1]
  cases hf : findRC s.remotes A with
  | none =>
      have h2 : clearRemoteCanvas (some A) s = s := by
        simp only [clearRemoteCanvas]
        rw [if_neg hAne, hf]
      rw [h2]
      have hall := findRC_none_forall _ _ hf
      refine ⟨rfl, rfl, ?_, ?_⟩
      · rw [hf]
        rfl
      · refine composeLayers_split s pre post B rB p c hsplit hc ?_
        intro e he
        refine hpost e he (hall e ?_)
        rw [hsplit]
        exact List.mem_append_right _ (List.mem_cons_of_mem _ he)
  | some r =>
      have h2 : clearRemoteCanvas (some A) s
          = { s with remotes := updateRemote A ({ r with canvas := blankLayer }) s.remotes } := by
        simp only [clearRemoteCanvas]
        rw [if_neg hAne, hf]
      rw [h2]
      refine ⟨rfl, ?_, ?_, ?_⟩
      · show findRC (updateRemote A ({ r with canvas := blankLayer }) s.remotes) k
            = findRC s.remotes k
        exact findRC_updateRemote_ne _ _ _ _ hk
      · show ((findRC (updateRemote A ({ r with canvas := blankLayer }) s.remotes) A).getD
            blankRC).canvas x = none
        rw [findRC_updateRemote_self _ _ _ _ hf]
        rfl
      · obtain ⟨pre2, post2, heq, hp2⟩ :=
          updateRemote_split pre post A B rB ({ r with canvas := blankLayer }) hBA p hpost rfl
        refine composeLayers_split _ pre2 post2 B rB p c ?_ hc hp2
        show updateRemote A ({ r with canvas := blankLayer }) s.remotes
            = pre2 ++ (B, rB) :: post2
        rw [hsplit]
        exact heq

/-- Witness for C8: author A clears while B's stroke is on file; B's entry
is untouched, A's canvas is blank everywhere, and the composed output still
shows B's pixel. -/
theorem c8_remote_clear_isolation_witness :
    (onClearCanvas "me" (some "A") sC8).userLayer ((0 : Int), (0 : Int))
        = sC8.userLayer ((0 : Int), (0 : Int))
    ∧ findRC (onClearCanvas "me" (some "A") sC8).remotes "B" = findRC sC8.remotes "B"
    ∧ ((findRC (onClearCanvas "me" (some "A") sC8).remotes "A").getD blankRC).canvas
        ((5 : Int), (5 : Int)) = none
    ∧ composeLayers (onClearCanvas "me" (some "A") sC8) ((1 : Int), (1 : Int)) = some 7 :=
  c8_remote_clear_isolation "me" "A" "B" "B" sC8 [("A", rcA)] [] rcB 7
    ((1 : Int), (1 : Int)) ((0 : Int), (0 : Int)) ((5 : Int), (5 : Int))
    (by decide) (by decide) (by decide) (by decide) rfl (by decide) (by simp)
